import Mathlib

/-!
Shallow embedding of the decorator/generator database scripts of the
repository `alx-backend-python`, together with theorems settling the
spec claims about them.

Conventions of the embedding:
* A Python function that may raise is modelled as returning
  `Except ε α` (an `Except.error` value is a raised exception).
* Side effects (opening/closing connections, statement executions,
  the global query cache) are modelled by explicit state passing.
* A wrapped operation whose behaviour may differ between attempts is
  modelled as a function of the 0-based attempt index.
-/

namespace AlxBackend

/-! Model of `3-retry_on_failure.py`: the `retry_on_failure` decorator

Python source:
```
def retry_on_failure(retries=3, delay=2):
    def decorator(func):
        def wrapper(*args, **kwargs):
            attempts = 0
            while attempts < retries:
                try:
                    return func(*args, **kwargs)
                except Exception as e:
                    attempts += 1
                    if attempts >= retries:
                        raise
                    time.sleep(delay)
        return wrapper
    return decorator
```
If the `while` loop exits without returning (only possible when
`retries = 0`), the wrapper implicitly returns `None`; we model the
wrapper result as `Except ε (Option α)`, with `Except.ok none` the
implicit-`None` return.  The second component of the result counts
how many times `func` was invoked.  `remaining` is `retries - attempts`,
so the loop guard `attempts < retries` becomes `remaining ≠ 0` and the
terminal test `attempts + 1 ≥ retries` becomes `remaining = 1`.
The `time.sleep(delay)` call has no modelled effect. -/

/-- One iteration chain of the `while attempts < retries` loop of
`retry_on_failure`, recursing on `remaining = retries - attempts`;
`attempts` is the 0-based index of the current attempt.  Returns the
wrapper's result and the number of invocations of `func`. -/
def retryGo (f : Nat → Except ε α) (attempts : Nat) :
    Nat → Except ε (Option α) × Nat
  | 0 => (Except.ok none, 0)
  | remaining + 1 =>
    match f attempts with
    | Except.ok a => (Except.ok (some a), 1)
    | Except.error e =>
      if remaining = 0 then
        (Except.error e, 1)
      else
        let r := retryGo f (attempts + 1) remaining
        (r.1, r.2 + 1)

/-- Result of a `retry_on_failure(retries, delay)`-wrapped call: starts at
`attempts = 0` with `remaining = retries`. -/
def retry_on_failure (retries : Nat) (f : Nat → Except ε α) :
    Except ε (Option α) × Nat :=
  retryGo f 0 retries

/-! Model of `4-cache_query.py`: `with_db_connection`, `cache_query`,
`fetch_users_with_cache`

Python source (decoration order: `with_db_connection` is the OUTERMOST
decorator, `cache_query` the inner one):
```
query_cache = {}

def with_db_connection(func):
    def wrapper(*args, **kwargs):
        conn = sqlite3.connect("users.db")
        try:
            return func(conn, *args, **kwargs)
        finally:
            conn.close()
    return wrapper

def cache_query(func):
    def wrapper(conn, query, *args, **kwargs):
        if query in query_cache:
            return query_cache[query]
        result = func(conn, query, *args, **kwargs)
        query_cache[query] = result
        return result
    return wrapper

@with_db_connection
@cache_query
def fetch_users_with_cache(conn, query):
    cursor = conn.cursor()
    cursor.execute(query)
    return cursor.fetchall()
```
The state records the global `query_cache` (an association list keyed
by the exact query string, as a Python dict), and counters for the
side effects the claims talk about: connection opens, connection
closes, and statement executions. -/

/-- The mutable state threaded through `4-cache_query.py`: the global
`query_cache` plus counters of `sqlite3.connect`, `conn.close` and
`cursor.execute` side effects. -/
structure CacheState (ρ : Type) where
  cache : List (String × ρ)
  opens : Nat
  closes : Nat
  execs : Nat
  deriving Repr, DecidableEq

/-- Python dict lookup `query_cache[query]` / membership
`query in query_cache`: first binding of the exact key string. -/
def lookupCache (c : List (String × ρ)) (q : String) : Option ρ :=
  match c with
  | [] => none
  | (k, v) :: rest => if k = q then some v else lookupCache rest q

/-- The raw body of `fetch_users_with_cache`: executes the statement
on the database (`dbExec` models what `cursor.execute` + `fetchall`
return for a given query, possibly raising) and counts the execution. -/
def raw_fetch (dbExec : String → Except ε ρ) (query : String)
    (s : CacheState ρ) : Except ε ρ × CacheState ρ :=
  (dbExec query, { s with execs := s.execs + 1 })

/-- The `cache_query` decorator: on a hit returns the stored rows with
no further effect; on a miss runs the body and, if it returns
normally, stores the result under the exact query string (a raised
exception leaves the cache unchanged and propagates). -/
def cache_query (body : String → CacheState ρ → Except ε ρ × CacheState ρ)
    (query : String) (s : CacheState ρ) : Except ε ρ × CacheState ρ :=
  match lookupCache s.cache query with
  | some rows => (Except.ok rows, s)
  | none =>
    match body query s with
    | (Except.ok rows, s1) =>
      (Except.ok rows, { s1 with cache := s1.cache ++ [(query, rows)] })
    | (Except.error e, s1) => (Except.error e, s1)

/-- The `with_db_connection` decorator of `4-cache_query.py`: opens a
connection, runs the body, and the `finally` clause closes the
connection on the normal path and on the raising path alike, after
which the body's outcome (value or exception) is passed on. -/
def with_db_connection (body : CacheState ρ → Except ε ρ × CacheState ρ)
    (s : CacheState ρ) : Except ε ρ × CacheState ρ :=
  let s1 := { s with opens := s.opens + 1 }
  match body s1 with
  | (r, s2) => (r, { s2 with closes := s2.closes + 1 })

/-- Model of `fetch_users_with_cache` as decorated in the source:
`with_db_connection` outermost, `cache_query` inside it, around the
raw statement execution. -/
def fetch_users_with_cache (dbExec : String → Except ε ρ) (query : String) :
    CacheState ρ → Except ε ρ × CacheState ρ :=
  with_db_connection (cache_query (raw_fetch dbExec) query)

/-! Model of `2-transactional.py`: the `transactional` decorator

Python source:
```
def transactional(func):
    def wrapper(conn, *args, **kwargs):
        try:
            result = func(conn, *args, **kwargs)
            conn.commit()
            return result
        except Exception:
            conn.rollback()
            raise
    return wrapper
```
A connection is modelled as the pair of its last committed database
state and its current (possibly uncommitted) state; the wrapped
operation reads the current state and either returns a result plus a
new current state, or raises.  `conn.commit()` makes the current state
the committed one; `conn.rollback()` discards the uncommitted changes,
resetting the current state to the committed one. -/

/-- A database connection as seen by `transactional`: the state a
subsequent read observes is `current`; `committed` is the last
committed state. -/
structure TxConn (δ : Type) where
  committed : δ
  current : δ
  deriving Repr, DecidableEq

/-- The `transactional` decorator: runs the wrapped operation on the
connection; commits and returns its result on normal return, rolls
back and re-raises the original exception unchanged on a raise. -/
def transactional (f : δ → Except ε (α × δ)) (conn : TxConn δ) :
    Except ε α × TxConn δ :=
  match f conn.current with
  | Except.ok (a, d) => (Except.ok a, { committed := d, current := d })
  | Except.error e =>
    (Except.error e, { committed := conn.committed, current := conn.committed })

/-! Model of `1-with_db_connection.py`: handle lifecycle of `with_db_connection`

Python source:
```
def with_db_connection(func):
    def wrapper(*args, **kwargs):
        conn = sqlite3.connect("users.db")
        try:
            result = func(conn, *args, **kwargs)
            return result
        finally:
            conn.close()
    return wrapper
```
To state the exactly-once release property, the world records one
close-count per handle, in order of creation; `sqlite3.connect`
appends a fresh handle with close-count 0, `conn.close()` increments
the count of that handle.  The wrapped operation may also act on
arbitrary further state `σ` (its own result or exception is threaded
through unchanged by the `finally` clause). -/

/-- The world threaded through `1-with_db_connection.py`: per-handle
close counts (index = creation order) plus the wrapped operation's own
state. -/
structure ConnWorld (σ : Type) where
  closeCounts : List Nat
  inner : σ
  deriving Repr, DecidableEq

/-- Effect of `conn.close()` on handle `h`: increments that handle's close
count. -/
def closeHandle (l : List Nat) (h : Nat) : List Nat :=
  match l, h with
  | [], _ => []
  | c :: rest, 0 => (c + 1) :: rest
  | c :: rest, n + 1 => c :: closeHandle rest n

/-- The `with_db_connection` wrapper of `1-with_db_connection.py`:
opens a fresh handle, runs the wrapped operation, and the `finally`
clause closes that handle on the normal path and on the raising path
alike, after which the operation's outcome propagates. -/
def with_db_connection_run (f : σ → Except ε α × σ) (w : ConnWorld σ) :
    Except ε α × ConnWorld σ :=
  let h := w.closeCounts.length
  let w1 : ConnWorld σ := ⟨w.closeCounts ++ [0], w.inner⟩
  match f w1.inner with
  | (r, s2) => (r, ⟨closeHandle w1.closeCounts h, s2⟩)

/-! Model of `3-concurrent.py`: `async_fetch_users` and `async_fetch_older_users`

Python source (both functions have the same error-handling shape):
```
async def async_fetch_users():
    try:
        async with aiosqlite.connect(db_name) as db:
            async with db.execute("SELECT * FROM users ORDER BY name") as cursor:
                users = await cursor.fetchall()
        return users
    except Exception as e:
        print("Problem in async_fetch_users:", e)
        return []
```
The database is modelled as a function from query string to outcome
(`dbExec`); the result type is kept as `Except` so that "the exception
propagates" versus "the exception is caught and converted" is visible:
`Except.ok` means the coroutine returned normally. -/

/-- The query string of `async_fetch_users`. -/
def usersQuery : String := "SELECT * FROM users ORDER BY name"

/-- The query string of `async_fetch_older_users` (parameterised on
`age_limit = 40`). -/
def olderUsersQuery : String :=
  "SELECT * FROM users WHERE age > ? ORDER BY age DESC"

/-- Model of `async_fetch_users`: runs its query; on any exception, catches it,
prints, and returns the empty list as a normal result. -/
def async_fetch_users (dbExec : String → Except ε (List ρ)) :
    Except ε (List ρ) :=
  match dbExec usersQuery with
  | Except.ok users => Except.ok users
  | Except.error _ => Except.ok []

/-- Model of `async_fetch_older_users`: runs its query; on any exception,
catches it, prints, and returns the empty list as a normal result. -/
def async_fetch_older_users (dbExec : String → Except ε (List ρ)) :
    Except ε (List ρ) :=
  match dbExec olderUsersQuery with
  | Except.ok olderUsers => Except.ok olderUsers
  | Except.error _ => Except.ok []

/-! Model of `2-lazy_paginate.py`: `paginate_users` and `lazy_pagination`

Python source:
```
def paginate_users(page_size, offset):
    ...
    cursor.execute("SELECT * FROM user_data LIMIT ps OFFSET ofs")  -- f-string interpolating page_size, offset
    rows = cursor.fetchall()
    ...
    return rows

def lazy_pagination(page_size):
    offset = 0
    while True:
        page = paginate_users(page_size, offset)
        if not page:
            break
        yield page
        offset += page_size
```
The table `user_data` with its fixed order is a list; SQL
`LIMIT page_size OFFSET offset` is `take page_size` after
`drop offset`.  The generator is modelled as the list of all pages it
yields; the loop is given `table.length + 1` iterations of fuel, which
is enough whenever `page_size ≥ 1` because each non-empty page
advances `offset` by at least one row. -/

/-- Model of `paginate_users`: one page of the table,
`LIMIT page_size OFFSET offset`. -/
def paginate_users (table : List ρ) (page_size offset : Nat) : List ρ :=
  (table.drop offset).take page_size

/-- The `while True` loop of `lazy_pagination`, with explicit fuel:
fetches the page at `offset`, stops on an empty page, otherwise yields
it and advances `offset` by `page_size`. -/
def lazyPagesGo (table : List ρ) (page_size : Nat) :
    Nat → Nat → List (List ρ)
  | _, 0 => []
  | offset, fuel + 1 =>
    let page := paginate_users table page_size offset
    if page.isEmpty then []
    else page :: lazyPagesGo table page_size (offset + page_size) fuel

/-- Model of `lazy_pagination(page_size)`: the list of pages the generator
yields, starting at `offset = 0`. -/
def lazy_pagination (table : List ρ) (page_size : Nat) : List (List ρ) :=
  lazyPagesGo table page_size 0 (table.length + 1)

/-! Model of `4-stream_ages.py`: `compute_average_age`

Python source:
```
def compute_average_age():
    total_age = 0
    count = 0
    for age in stream_user_ages():
        total_age += age
        count += 1
    average_age = total_age / count if count else 0
    print("Average age of users:", average_age)
```
The finite stream of ages is a list of rationals (SQL `DECIMAL`
values).  Python's `/` raises `ZeroDivisionError` on a zero divisor,
modelled by `pyTrueDiv` returning `none`; the conditional expression
guards the division, so the claim that no division-by-zero occurs is
the statement that the result is always `some`. -/

/-- Python's true division `a / b`: raises (`none`) exactly when the
divisor is zero. -/
def pyTrueDiv (a b : ℚ) : Option ℚ :=
  if b = 0 then none else some (a / b)

/-- Model of `compute_average_age` over a finite stream of ages: folds the
running total and count over the stream, then evaluates
`total_age / count if count else 0`.  `none` would mean an uncaught
`ZeroDivisionError`. -/
def compute_average_age (ages : List ℚ) : Option ℚ :=
  let acc := ages.foldl (fun tc age => (tc.1 + age, tc.2 + 1))
    ((0 : ℚ), (0 : Nat))
  if acc.2 ≠ 0 then pyTrueDiv acc.1 (acc.2 : ℚ) else some 0

/-! Helper lemmas shared by the claim theorems. -/

/-- Closing the freshly appended handle increments only its own count. -/
theorem closeHandle_append (l : List Nat) (c : Nat) :
    closeHandle (l ++ [c]) l.length = l ++ [c + 1] := by
  induction l with
  | nil => rfl
  | cons x xs ih => simpa [closeHandle] using ih

/-- A key absent from the cache is found after being appended. -/
theorem lookupCache_append_self (c : List (String × ρ)) (q : String) (r : ρ)
    (h : lookupCache c q = none) :
    lookupCache (c ++ [(q, r)]) q = some r := by
  induction c with
  | nil => simp [lookupCache]
  | cons kv rest ih =>
    by_cases hk : kv.1 = q
    · simp [lookupCache, hk] at h
    · simp only [lookupCache, hk, if_neg] at h ⊢
      exact ih h

/-- Appending an entry for key `q` leaves lookups of any other key
unchanged: cache-key equality is exact string match. -/
theorem lookupCache_append_other (c : List (String × ρ)) (q q' : String)
    (r : ρ) (h : q' ≠ q) :
    lookupCache (c ++ [(q, r)]) q' = lookupCache c q' := by
  induction c with
  | nil =>
    simp only [List.nil_append, lookupCache]
    rw [if_neg (fun hq => h hq.symm)]
  | cons kv rest ih =>
    by_cases hk : kv.1 = q'
    · simp [lookupCache, hk]
    · simp only [lookupCache, hk, if_neg]
      exact ih

/-! Claim theorems. -/

/-- C6: the `transactional` wrapper invokes the wrapped operation; on a
normal return it commits the connection (the operation's new state
becomes both current and committed) and returns the operation's
result; on a raise it rolls back (the current state a subsequent read
observes is reset to the previously committed state, so no state
change from the failed operation is visible) and re-raises the
original failure unchanged. -/
theorem transactional_commit_rollback (f : δ → Except ε (α × δ))
    (conn : TxConn δ) :
    (∀ a d, f conn.current = Except.ok (a, d) →
      transactional f conn =
        (Except.ok a, { committed := d, current := d }))
    ∧ (∀ e, f conn.current = Except.error e →
      transactional f conn =
        (Except.error e,
          { committed := conn.committed, current := conn.committed })) := by
  constructor
  · intro a d h
    simp [transactional, h]
  · intro e h
    simp [transactional, h]

/-- Witness for C6 at concrete inputs: a successful update commits and
returns the result, a failing update rolls back to the committed state
and re-raises. -/
theorem transactional_commit_rollback_witness :
    transactional
        (fun d => (Except.ok ("done", d + 5) : Except String (String × Nat)))
        ({ committed := 10, current := 10 } : TxConn Nat) =
      (Except.ok "done", { committed := 15, current := 15 })
    ∧ transactional (fun _ => (Except.error "boom" : Except String (String × Nat)))
        ({ committed := 10, current := 12 } : TxConn Nat) =
      (Except.error "boom", { committed := 10, current := 10 }) :=
  ⟨(transactional_commit_rollback
      (fun d => (Except.ok ("done", d + 5) : Except String (String × Nat)))
      { committed := 10, current := 10 }).1 "done" 15 rfl,
   (transactional_commit_rollback (fun _ => Except.error "boom")
      { committed := 10, current := 12 }).2 "boom" rfl⟩

/-- C7: the handle opened at the start of a `with_db_connection`
invocation is released exactly once by the time the invocation
completes — its close count goes from 0 to 1 and every pre-existing
handle's count is untouched — and this holds identically on the normal
path and on the raising path, the wrapped operation's outcome (value
or exception) propagating to the caller after the release. -/
theorem with_db_connection_releases_once (f : σ → Except ε α × σ)
    (w : ConnWorld σ) :
    (with_db_connection_run f w).2.closeCounts = w.closeCounts ++ [1]
    ∧ (with_db_connection_run f w).1 = (f w.inner).1
    ∧ (with_db_connection_run f w).2.inner = (f w.inner).2 := by
  refine ⟨?_, ?_, ?_⟩ <;>
    simp [with_db_connection_run, closeHandle_append]

/-- C8: after a cache miss, if the statement execution raises, the
exception propagates to the caller (through the closing of the
connection) and the cache is left unchanged — no entry is stored under
the failing query's key. -/
theorem cache_never_stores_failure (dbExec : String → Except ε ρ)
    (query : String) (e : ε) (s : CacheState ρ)
    (hmiss : lookupCache s.cache query = none)
    (hdb : dbExec query = Except.error e) :
    fetch_users_with_cache dbExec query s =
      (Except.error e,
        { s with opens := s.opens + 1, closes := s.closes + 1,
                 execs := s.execs + 1 })
    ∧ (fetch_users_with_cache dbExec query s).2.cache = s.cache := by
  constructor
  · simp [fetch_users_with_cache, with_db_connection, cache_query,
      raw_fetch, hmiss, hdb]
  · simp [fetch_users_with_cache, with_db_connection, cache_query,
      raw_fetch, hmiss, hdb]

/-- Witness for C8: a failing statement on an uncached query leaves
the (singleton) cache unchanged and the error is propagated. -/
theorem cache_never_stores_failure_witness :
    fetch_users_with_cache
        (fun _ => (Except.error "db down" : Except String (List Nat)))
        "SELECT 1" ⟨[("other", [0])], 4, 4, 2⟩ =
      (Except.error "db down", ⟨[("other", [0])], 5, 5, 3⟩) :=
  (cache_never_stores_failure
    (fun _ => (Except.error "db down" : Except String (List Nat)))
    "SELECT 1" "db down" ⟨[("other", [0])], 4, 4, 2⟩ (by decide) rfl).1

/-- C1 counterexample: with the query `"Q"` already present in the
cache, a call to `fetch_users_with_cache` still performs a connection
open and a connection close (the `with_db_connection` decorator is
outermost, so the cache lookup happens only after the connection is
opened): the open/close counters both advance from 0 to 1, refuting
the claim that a cache hit performs no connection open/close side
effects. -/
theorem cache_hit_opens_connection_cex :
    (fetch_users_with_cache (fun _ => (Except.ok [9] : Except Unit (List Nat)))
        "Q" ⟨[("Q", [1, 2])], 0, 0, 0⟩).2.opens = 1
    ∧ (fetch_users_with_cache (fun _ => (Except.ok [9] : Except Unit (List Nat)))
        "Q" ⟨[("Q", [1, 2])], 0, 0, 0⟩).2.closes = 1
    ∧ ¬ ((fetch_users_with_cache (fun _ => (Except.ok [9] : Except Unit (List Nat)))
        "Q" ⟨[("Q", [1, 2])], 0, 0, 0⟩).2.opens = 0) := by
  refine ⟨rfl, rfl, ?_⟩
  decide

/-- C1 (amended): for every query already present in the cache, a call
to `fetch_users_with_cache` returns the stored rows without executing
the statement (and a fortiori without any retry, which
`4-cache_query.py` does not compose at all), leaving the cache and the
execution counter unchanged — but it still opens and closes one
database connection, because `with_db_connection` is the outermost
decorator and runs before the cache lookup. -/
theorem cache_hit_no_exec_but_opens (dbExec : String → Except ε ρ)
    (query : String) (rows : ρ) (s : CacheState ρ)
    (hhit : lookupCache s.cache query = some rows) :
    fetch_users_with_cache dbExec query s =
      (Except.ok rows,
        { s with opens := s.opens + 1, closes := s.closes + 1 }) := by
  simp [fetch_users_with_cache, with_db_connection, cache_query, hhit]

/-- Witness for the amended C1 at concrete inputs: a hit on a cached
query returns the stored rows, leaves `execs` at 7, and bumps `opens`
and `closes`. -/
theorem cache_hit_no_exec_but_opens_witness :
    fetch_users_with_cache
        (fun _ => (Except.ok [99] : Except Unit (List Nat)))
        "SELECT * FROM users" ⟨[("SELECT * FROM users", [1, 2, 3])], 7, 7, 7⟩ =
      (Except.ok [1, 2, 3], ⟨[("SELECT * FROM users", [1, 2, 3])], 8, 8, 7⟩) :=
  cache_hit_no_exec_but_opens
    (fun _ => (Except.ok [99] : Except Unit (List Nat)))
    "SELECT * FROM users" [1, 2, 3]
    ⟨[("SELECT * FROM users", [1, 2, 3])], 7, 7, 7⟩ (by decide)

/-- C4: on a query string not present in the cache whose execution
succeeds, `fetch_users_with_cache` invokes the statement execution
exactly once (the `execs` counter advances by exactly one), stores the
result under that exact query string, and returns it; a second call
with the same string returns the identical stored result with no
further statement execution; and the new entry is visible only under
the exact key string — lookups of every other key are unchanged. -/
theorem cache_miss_then_hit (dbExec : String → Except ε ρ)
    (query : String) (rows : ρ) (s : CacheState ρ)
    (hmiss : lookupCache s.cache query = none)
    (hdb : dbExec query = Except.ok rows) :
    (fetch_users_with_cache dbExec query s).1 = Except.ok rows
    ∧ (fetch_users_with_cache dbExec query s).2.execs = s.execs + 1
    ∧ lookupCache (fetch_users_with_cache dbExec query s).2.cache query
        = some rows
    ∧ (fetch_users_with_cache dbExec query
        (fetch_users_with_cache dbExec query s).2).1 = Except.ok rows
    ∧ (fetch_users_with_cache dbExec query
        (fetch_users_with_cache dbExec query s).2).2.execs
        = (fetch_users_with_cache dbExec query s).2.execs
    ∧ (∀ q', q' ≠ query →
        lookupCache (fetch_users_with_cache dbExec query s).2.cache q'
          = lookupCache s.cache q') := by
  have hstep : fetch_users_with_cache dbExec query s =
      (Except.ok rows,
        { s with cache := s.cache ++ [(query, rows)],
                 opens := s.opens + 1, closes := s.closes + 1,
                 execs := s.execs + 1 }) := by
    simp [fetch_users_with_cache, with_db_connection, cache_query,
      raw_fetch, hmiss, hdb]
  have hfound : lookupCache (s.cache ++ [(query, rows)]) query = some rows :=
    lookupCache_append_self s.cache query rows hmiss
  refine ⟨?_, ?_, ?_, ?_, ?_, ?_⟩
  · rw [hstep]
  · rw [hstep]
  · rw [hstep]; exact hfound
  · rw [hstep]
    rw [cache_hit_no_exec_but_opens dbExec query rows
      { s with cache := s.cache ++ [(query, rows)],
               opens := s.opens + 1, closes := s.closes + 1,
               execs := s.execs + 1 } hfound]
  · rw [hstep]
    rw [cache_hit_no_exec_but_opens dbExec query rows
      { s with cache := s.cache ++ [(query, rows)],
               opens := s.opens + 1, closes := s.closes + 1,
               execs := s.execs + 1 } hfound]
  · intro q' hq'
    rw [hstep]
    exact lookupCache_append_other s.cache query q' rows hq'

/-- Witness for C4 at concrete inputs: first call on an empty cache
executes once and caches; the second call returns the same rows
without executing. -/
theorem cache_miss_then_hit_witness :
    (fetch_users_with_cache
        (fun _ => (Except.ok [5, 6] : Except Unit (List Nat)))
        "SELECT * FROM users" ⟨[], 0, 0, 0⟩).1 = Except.ok [5, 6]
    ∧ (fetch_users_with_cache
        (fun _ => (Except.ok [5, 6] : Except Unit (List Nat)))
        "SELECT * FROM users" ⟨[], 0, 0, 0⟩).2.execs = 0 + 1
    ∧ lookupCache (fetch_users_with_cache
        (fun _ => (Except.ok [5, 6] : Except Unit (List Nat)))
        "SELECT * FROM users" ⟨[], 0, 0, 0⟩).2.cache "SELECT * FROM users"
        = some [5, 6]
    ∧ (fetch_users_with_cache
        (fun _ => (Except.ok [5, 6] : Except Unit (List Nat)))
        "SELECT * FROM users"
        (fetch_users_with_cache
          (fun _ => (Except.ok [5, 6] : Except Unit (List Nat)))
          "SELECT * FROM users" ⟨[], 0, 0, 0⟩).2).1 = Except.ok [5, 6]
    ∧ (fetch_users_with_cache
        (fun _ => (Except.ok [5, 6] : Except Unit (List Nat)))
        "SELECT * FROM users"
        (fetch_users_with_cache
          (fun _ => (Except.ok [5, 6] : Except Unit (List Nat)))
          "SELECT * FROM users" ⟨[], 0, 0, 0⟩).2).2.execs
        = (fetch_users_with_cache
          (fun _ => (Except.ok [5, 6] : Except Unit (List Nat)))
          "SELECT * FROM users" ⟨[], 0, 0, 0⟩).2.execs
    ∧ lookupCache (fetch_users_with_cache
        (fun _ => (Except.ok [5, 6] : Except Unit (List Nat)))
        "SELECT * FROM users" ⟨[], 0, 0, 0⟩).2.cache "SELECT * FROM user_data"
        = lookupCache (⟨[], 0, 0, 0⟩ : CacheState (List Nat)).cache
            "SELECT * FROM user_data" := by
  obtain ⟨h1, h2, h3, h4, h5, h6⟩ := cache_miss_then_hit
    (fun _ => (Except.ok [5, 6] : Except Unit (List Nat)))
    "SELECT * FROM users" [5, 6] ⟨[], 0, 0, 0⟩ (by decide) rfl
  exact ⟨h1, h2, h3, h4, h5, h6 "SELECT * FROM user_data" (by decide)⟩

/-- C5 counterexample: `async_fetch_users` over a database whose every
query raises returns the empty list as a normal result instead of
propagating the failure — outside the collect-failures variant, this
query operation does swallow failures, refuting the claim. -/
theorem async_fetch_swallow_cex :
    async_fetch_users (fun _ => (Except.error () : Except Unit (List Nat)))
      = Except.ok []
    ∧ async_fetch_users (fun _ => (Except.error () : Except Unit (List Nat)))
      ≠ Except.error () := by
  exact ⟨rfl, fun h => nomatch h⟩

/-- C5 (amended): the two async query coroutines of `3-concurrent.py`
each catch every failure raised by their query and convert it into a
normal empty-list result (reporting it only via a printed message), so
failures in the concurrent comparison are swallowed rather than
propagated; a successful query's rows are returned unchanged. -/
theorem async_fetch_returns_empty_on_failure
    (dbExec : String → Except ε (List ρ)) :
    (∀ e, dbExec usersQuery = Except.error e →
      async_fetch_users dbExec = Except.ok [])
    ∧ (∀ rows, dbExec usersQuery = Except.ok rows →
      async_fetch_users dbExec = Except.ok rows)
    ∧ (∀ e, dbExec olderUsersQuery = Except.error e →
      async_fetch_older_users dbExec = Except.ok [])
    ∧ (∀ rows, dbExec olderUsersQuery = Except.ok rows →
      async_fetch_older_users dbExec = Except.ok rows) := by
  refine ⟨?_, ?_, ?_, ?_⟩ <;> intro x h <;>
    simp [async_fetch_users, async_fetch_older_users, h]

/-- Witness for the amended C5 at a concrete database: both coroutines
convert a raised failure into `Except.ok []`. -/
theorem async_fetch_returns_empty_on_failure_witness :
    async_fetch_users (fun _ => (Except.error "offline" : Except String (List Nat)))
      = Except.ok []
    ∧ async_fetch_older_users
        (fun _ => (Except.error "offline" : Except String (List Nat)))
      = Except.ok [] :=
  ⟨(async_fetch_returns_empty_on_failure
      (fun _ => (Except.error "offline" : Except String (List Nat)))).1
      "offline" rfl,
   (async_fetch_returns_empty_on_failure
      (fun _ => (Except.error "offline" : Except String (List Nat)))).2.2.1
      "offline" rfl⟩

/-- Helper: one failing loop iteration with a non-terminal budget
recurses on the next attempt, adding one invocation. -/
theorem retryGo_err_step (f : Nat → Except ε α) (attempts m : Nat) (e : ε)
    (he : f attempts = Except.error e) (hm : m ≠ 0) :
    retryGo f attempts (m + 1)
      = ((retryGo f (attempts + 1) m).1,
         (retryGo f (attempts + 1) m).2 + 1) := by
  simp [retryGo, he, hm]

/-- Helper: if every attempt raises, the retry loop started with
`remaining ≥ 1` budget invokes the operation `remaining` times and
propagates the exception of the last attempt. -/
theorem retryGo_allFail (f : Nat → Except ε α)
    (hf : ∀ i, ∃ e, f i = Except.error e) :
    ∀ remaining attempts, 1 ≤ remaining →
      ∃ e, f (attempts + remaining - 1) = Except.error e
        ∧ retryGo f attempts remaining = (Except.error e, remaining) := by
  intro remaining
  induction remaining with
  | zero => intro attempts h; omega
  | succ m ih =>
    intro attempts _
    obtain ⟨e, he⟩ := hf attempts
    cases m with
    | zero =>
      exact ⟨e, by simpa using he, by simp [retryGo, he]⟩
    | succ k =>
      obtain ⟨e', he', hgo⟩ := ih (attempts + 1) (by omega)
      refine ⟨e', ?_, ?_⟩
      · have : attempts + 1 + (k + 1) - 1 = attempts + (k + 1 + 1) - 1 := by
          omega
        rwa [this] at he'
      · rw [retryGo_err_step f attempts (k + 1) e he (by omega), hgo]

/-- Helper: if the first `k` attempts raise and attempt `k` (0-based)
succeeds with value `a`, the retry loop with budget `remaining ≥ k + 1`
invokes the operation `k + 1` times and returns `a`. -/
theorem retryGo_succeedAt (f : Nat → Except ε α) :
    ∀ k attempts remaining a, k + 1 ≤ remaining →
      (∀ i, i < k → ∃ e, f (attempts + i) = Except.error e) →
      f (attempts + k) = Except.ok a →
      retryGo f attempts remaining = (Except.ok (some a), k + 1) := by
  intro k
  induction k with
  | zero =>
    intro attempts remaining a hrem _ hok
    cases remaining with
    | zero => omega
    | succ m => simp [retryGo, show f attempts = Except.ok a by simpa using hok]
  | succ j ih =>
    intro attempts remaining a hrem hfail hok
    cases remaining with
    | zero => omega
    | succ m =>
      obtain ⟨e, he⟩ : ∃ e, f attempts = Except.error e := by
        simpa using hfail 0 (by omega)
      have hm : m ≠ 0 := by omega
      have hrec : retryGo f (attempts + 1) m = (Except.ok (some a), j + 1) := by
        refine ih (attempts + 1) m a (by omega) ?_ ?_
        · intro i hi
          obtain ⟨e', he'⟩ := hfail (i + 1) (by omega)
          exact ⟨e', by rwa [show attempts + 1 + i = attempts + (i + 1) by omega]⟩
        · rwa [show attempts + 1 + j = attempts + (j + 1) by omega]
      simp [retryGo, he, hm, hrec]

/-- C2: for every `retries = n ≥ 1`, an operation raising on every
attempt is invoked exactly `n` times by `retry_on_failure` and the
exception of the `n`-th attempt propagates to the caller; an operation
whose first success is at attempt `k ≤ n` (1-based, all earlier
attempts raising) is invoked exactly `k` times and its result is
returned with no further attempt. -/
theorem retry_on_failure_attempt_counts (n : Nat) (hn : 1 ≤ n)
    (f : Nat → Except ε α) :
    ((∀ i, ∃ e, f i = Except.error e) →
      ∃ e, f (n - 1) = Except.error e
        ∧ retry_on_failure n f = (Except.error e, n))
    ∧ (∀ k a, 1 ≤ k → k ≤ n →
        (∀ i, i + 1 < k → ∃ e, f i = Except.error e) →
        f (k - 1) = Except.ok a →
        retry_on_failure n f = (Except.ok (some a), k)) := by
  constructor
  · intro hf
    obtain ⟨e, he, hgo⟩ := retryGo_allFail f hf n 0 hn
    exact ⟨e, by simpa using he, hgo⟩
  · intro k a hk hkn hfail hok
    cases k with
    | zero => omega
    | succ j =>
      exact retryGo_succeedAt f j 0 n a (by omega)
        (fun i hi => by simpa using hfail i (by omega))
        (by simpa using hok)

/-- Witness for C2 at concrete inputs: with `retries = 2`, an
always-raising operation is invoked twice and its exception
propagates; an operation raising once then succeeding with `7` is
invoked twice and returns `7`. -/
theorem retry_on_failure_attempt_counts_witness :
    retry_on_failure 2 (fun _ => (Except.error "down" : Except String Nat))
      = (Except.error "down", 2)
    ∧ retry_on_failure 2
        (fun i => if i = 0 then Except.error "down" else Except.ok 7)
      = (Except.ok (some 7), 2) := by
  constructor
  · obtain ⟨e, he, hgo⟩ :=
      (retry_on_failure_attempt_counts 2 (by decide)
        (fun _ => (Except.error "down" : Except String Nat))).1
        (fun _ => ⟨"down", rfl⟩)
    have : e = "down" := by simpa using he.symm
    rwa [this] at hgo
  · exact (retry_on_failure_attempt_counts 2 (by decide)
      (fun i => if i = 0 then Except.error "down" else Except.ok 7)).2
      2 7 (by decide) (by decide)
      (fun i hi => ⟨"down", by
        have : i = 0 := by omega
        simp [this]⟩)
      rfl

/-- C3 counterexample: with `retries = 0` the `while attempts < retries`
loop of `retry_on_failure` never runs, so an always-raising operation
is invoked zero times — not once as the claim states — and no failure
is propagated: the wrapper falls through and returns `None`. -/
theorem retry_zero_skips_invocation_cex :
    (retry_on_failure 0 (fun _ => (Except.error () : Except Unit Nat))).2 = 0
    ∧ (retry_on_failure 0 (fun _ => (Except.error () : Except Unit Nat))).2 ≠ 1
    ∧ retry_on_failure 0 (fun _ => (Except.error () : Except Unit Nat))
        = (Except.ok none, 0) := by
  exact ⟨rfl, by decide, rfl⟩

/-- C3 (amended): with `retries = 1` the wrapped operation is invoked
exactly once and a failing single attempt propagates its exception
immediately; with `retries = 0`, however, the loop body never runs, so
the operation is invoked zero times and the wrapper returns `None`
(neither a result of the operation nor a failure). -/
theorem retry_zero_or_one_single_attempt (f : Nat → Except ε α) :
    retry_on_failure 0 f = (Except.ok none, 0)
    ∧ (∀ a, f 0 = Except.ok a →
        retry_on_failure 1 f = (Except.ok (some a), 1))
    ∧ (∀ e, f 0 = Except.error e →
        retry_on_failure 1 f = (Except.error e, 1)) := by
  refine ⟨rfl, ?_, ?_⟩
  · intro a h
    simp [retry_on_failure, retryGo, h]
  · intro e h
    simp [retry_on_failure, retryGo, h]

/-- Witness for the amended C3 at concrete inputs: `retries = 0` never
invokes the operation; `retries = 1` invokes a succeeding operation
once returning its value, and a failing operation once propagating its
exception. -/
theorem retry_zero_or_one_single_attempt_witness :
    retry_on_failure 0 (fun _ => (Except.ok 4 : Except String Nat))
      = (Except.ok none, 0)
    ∧ retry_on_failure 1 (fun _ => (Except.ok 4 : Except String Nat))
      = (Except.ok (some 4), 1)
    ∧ retry_on_failure 1 (fun _ => (Except.error "down" : Except String Nat))
      = (Except.error "down", 1) :=
  ⟨(retry_zero_or_one_single_attempt
      (fun _ => (Except.ok 4 : Except String Nat))).1,
   (retry_zero_or_one_single_attempt
      (fun _ => (Except.ok 4 : Except String Nat))).2.1 4 rfl,
   (retry_zero_or_one_single_attempt
      (fun _ => (Except.error "down" : Except String Nat))).2.2 "down" rfl⟩

/-- Helper: with `page_size ≥ 1` and enough fuel, the pages yielded
from `offset` onwards concatenate to exactly the table rows from
`offset` onwards, in order. -/
theorem lazyPagesGo_join (table : List ρ) (ps : Nat) (hps : 1 ≤ ps) :
    ∀ fuel offset, table.length - offset < fuel →
      (lazyPagesGo table ps offset fuel).flatten = table.drop offset := by
  intro fuel
  induction fuel with
  | zero => intro offset h; omega
  | succ n ih =>
    intro offset hfuel
    by_cases hpage : (paginate_users table ps offset).isEmpty
    · have hnil : (table.drop offset).take ps = [] :=
        List.isEmpty_iff.mp hpage
      have hdrop : table.drop offset = [] := by
        rcases List.take_eq_nil_iff.mp hnil with h | h
        · omega
        · exact h
      simp [lazyPagesGo, hpage, hdrop]
    · have hne : (table.drop offset).take ps ≠ [] :=
        fun h => hpage (List.isEmpty_iff.mpr h)
      have hlt : offset < table.length := by
        by_contra h
        exact hne (by
          rw [List.drop_eq_nil_iff.mpr (by omega)]
          simp)
      have hrec : (lazyPagesGo table ps (offset + ps) n).flatten
          = table.drop (offset + ps) := ih (offset + ps) (by omega)
      have hif : lazyPagesGo table ps offset (n + 1)
          = paginate_users table ps offset
            :: lazyPagesGo table ps (offset + ps) n := by
        simp only [lazyPagesGo]
        rw [if_neg hpage]
      rw [hif, List.flatten_cons, hrec]
      simp only [paginate_users]
      exact List.drop_take_append_drop table offset ps

/-- Helper: with `page_size ≥ 1` and enough fuel, the fetch at the
offset reached after all yielded pages returns an empty page (this is
the fetch whose emptiness terminates the generator loop). -/
theorem lazyPagesGo_after (table : List ρ) (ps : Nat) :
    ∀ fuel offset, table.length - offset < fuel →
      paginate_users table ps
        (offset + ps * (lazyPagesGo table ps offset fuel).length) = [] := by
  intro fuel
  induction fuel with
  | zero => intro offset h; omega
  | succ n ih =>
    intro offset hfuel
    by_cases hpage : (paginate_users table ps offset).isEmpty
    · simpa [lazyPagesGo, hpage] using List.isEmpty_iff.mp hpage
    · have hne : (table.drop offset).take ps ≠ [] :=
        fun h => hpage (List.isEmpty_iff.mpr h)
      have hlt : offset < table.length := by
        by_contra h
        exact hne (by
          rw [List.drop_eq_nil_iff.mpr (by omega)]
          simp)
      have hps : ps ≠ 0 := by
        intro h
        exact hne (by simp [h])
      have hrec := ih (offset + ps) (by omega)
      have hif : lazyPagesGo table ps offset (n + 1)
          = paginate_users table ps offset
            :: lazyPagesGo table ps (offset + ps) n := by
        simp only [lazyPagesGo]
        rw [if_neg hpage]
      rw [hif, List.length_cons]
      have harith : offset + ps * ((lazyPagesGo table ps (offset + ps) n).length + 1)
          = offset + ps + ps * (lazyPagesGo table ps (offset + ps) n).length := by
        rw [Nat.mul_succ]
        omega
      rw [harith]
      exact hrec

/-- C9: for every `page_size ≥ 1` and every table with its fixed row
order, concatenating all pages yielded by `lazy_pagination` yields
exactly the table's rows — no row missing, none duplicated, in the
original order — and the fetch performed after the last non-empty
page (at offset `page_size * number_of_pages`) returns an empty page,
which is what terminates the generator. -/
theorem lazy_pagination_exact_cover (table : List ρ) (ps : Nat)
    (hps : 1 ≤ ps) :
    (lazy_pagination table ps).flatten = table
    ∧ paginate_users table ps (ps * (lazy_pagination table ps).length)
        = [] := by
  constructor
  · simpa using lazyPagesGo_join table ps hps (table.length + 1) 0 (by omega)
  · simpa using lazyPagesGo_after table ps (table.length + 1) 0 (by omega)

/-- Witness for C9 at a concrete table: five rows with page size two
yield pages `[1,2], [3,4], [5]`, whose concatenation is the table, and
the fetch at offset 6 is empty. -/
theorem lazy_pagination_exact_cover_witness :
    (lazy_pagination [1, 2, 3, 4, 5] 2).flatten = [1, 2, 3, 4, 5]
    ∧ paginate_users [1, 2, 3, 4, 5] 2
        (2 * (lazy_pagination [1, 2, 3, 4, 5] 2).length) = [] :=
  lazy_pagination_exact_cover [1, 2, 3, 4, 5] 2 (by decide)

/-- Helper: the loop of `compute_average_age` accumulates the running
total and the element count. -/
theorem foldl_total_count (ages : List ℚ) :
    ∀ (t : ℚ) (c : Nat),
      ages.foldl (fun tc age => (tc.1 + age, tc.2 + 1)) (t, c)
        = (t + ages.sum, c + ages.length) := by
  induction ages with
  | nil => intro t c; simp
  | cons a l ih =>
    intro t c
    rw [List.foldl_cons, ih (t + a) (c + 1)]
    rw [List.sum_cons, List.length_cons]
    have h1 : t + a + l.sum = t + (a + l.sum) := by ring
    have h2 : c + 1 + l.length = c + (l.length + 1) := by omega
    rw [h1, h2]

/-- C10: `compute_average_age` never raises a `ZeroDivisionError`: on
every finite stream of ages it returns normally (`some`), reporting
the sum of the ages divided by their count when the stream is
non-empty and an average of `0` when the stream is empty. -/
theorem compute_average_age_total (ages : List ℚ) :
    compute_average_age ages =
      some (if ages.length = 0 then 0
            else ages.sum / (ages.length : ℚ)) := by
  have hacc := foldl_total_count ages 0 0
  by_cases h : ages.length = 0
  · have : ages = [] := List.length_eq_zero.mp h
    subst this
    simp [compute_average_age]
  · have hq : ((ages.length : ℚ)) ≠ 0 := by
      exact_mod_cast h
    simp only [compute_average_age, hacc]
    rw [if_pos (by simpa using h), if_neg h]
    simp [pyTrueDiv, hq]

end AlxBackend
